import Mathlib

/-!
# Verification of SirayaCreator (`src/language_creator.py`)

Shallow embedding of the generative core of the language-creator game:
phonology (syllable generation), morphology (named rule application),
syntax (word-order sentence assembly), and the composition layer
(level 1/2 setup effects and the final showcase synthesis).

Python strings are modelled as `List Char`; Python's `random.choice`
is modelled by an injected pick index (any natural number), failing
exactly when the sequence is empty, as `random.choice` does.
-/

namespace Siraya

/-- Python strings, modelled as lists of characters. -/
abbrev Str := List Char

/-- The exceptions relevant to this program.  `indexError` models Python's
`IndexError` (raised by `random.choice` on an empty sequence and by
out-of-range list indexing).  `emptyInventoryError` is NOT raised anywhere in
the source: it is the error named by the specification for empty-inventory
failures, included only so that statements about the spec's named error can
be written and compared against what the code actually raises. -/
inductive PyErr where
  | indexError : PyErr
  | emptyInventoryError : PyErr
  deriving DecidableEq, Repr

instance {ε α : Type _} [DecidableEq ε] [DecidableEq α] : DecidableEq (Except ε α) :=
  fun a b =>
    match a, b with
    | .ok x, .ok y =>
      if h : x = y then isTrue (by rw [h]) else isFalse (by simp [h])
    | .error x, .error y =>
      if h : x = y then isTrue (by rw [h]) else isFalse (by simp [h])
    | .ok _, .error _ => isFalse (fun hcon => Except.noConfusion hcon)
    | .error _, .ok _ => isFalse (fun hcon => Except.noConfusion hcon)

/-- Model of `random.choice(seq)`: some arbitrary element of the sequence,
selected here by an injected index `i` (reduced mod the length, so every
index denotes a valid element of a non-empty list); `none` exactly when the
sequence is empty, where CPython raises `IndexError`. -/
def randomChoice (l : List α) (i : Nat) : Option α :=
  l.get? (i % l.length)

/-- Characters stripped by Python's `str.strip()` (the ASCII whitespace
subset, which covers every string this program manipulates). -/
def isPySpace (c : Char) : Bool :=
  c = ' ' || c = '\t' || c = '\n' || c = Char.ofNat 11 || c = Char.ofNat 12 || c = '\r'

/-- Model of Python `str.strip()`: remove leading and trailing whitespace. -/
def pyStrip (s : Str) : Str :=
  ((s.dropWhile isPySpace).reverse.dropWhile isPySpace).reverse

/-- `startsOk s` holds when `s` is non-empty and its first character is not
whitespace (so `strip` does not touch its front). -/
def startsOk : Str → Bool
  | [] => false
  | c :: _ => !(isPySpace c)

/-- `noPad s`: `s` is non-empty and has neither leading nor trailing
whitespace ("no whitespace padding"). -/
def noPad (s : Str) : Bool :=
  startsOk s && startsOk s.reverse

/-! ## MorphologySystem (`src/language_creator.py` lines 39-71) -/

/-- `MorphologyRule` dataclass: name, rule_type (one of the strings
"prefix", "suffix", "infix", "reduplication"), marker, meaning. -/
structure MorphologyRule where
  name : Str
  rule_type : Str
  marker : Str
  meaning : Str
  deriving DecidableEq, Repr

/-- `MorphologySystem.apply_morphology` (lines 61-71): scan the rule list in
order; at a rule whose name matches, return `marker ++ base_word` for
rule_type "prefix", `base_word ++ marker` for "suffix", `base_word ++
base_word` for "reduplication" — and for ANY other rule_type the inner
`if/elif` chain falls through and the Python `for` loop continues with the
next rule.  After the loop, return `base_word`. -/
def apply_morphology (rules : List MorphologyRule) (base_word rule_name : Str) : Str :=
  match rules with
  | [] => base_word
  | r :: rest =>
    if r.name = rule_name then
      if r.rule_type = "prefix".toList then r.marker ++ base_word
      else if r.rule_type = "suffix".toList then base_word ++ r.marker
      else if r.rule_type = "reduplication".toList then base_word ++ base_word
      else apply_morphology rest base_word rule_name
    else apply_morphology rest base_word rule_name

/-- A rule is *effective* for a lookup name when its name matches and its
rule_type is one of the three kinds that `apply_morphology` acts on. -/
def isEffectiveFor (rule_name : Str) (r : MorphologyRule) : Bool :=
  r.name = rule_name &&
    (r.rule_type = "prefix".toList || r.rule_type = "suffix".toList ||
      r.rule_type = "reduplication".toList)

/-- The transformation an effective rule performs on a word. -/
def ruleEffect (r : MorphologyRule) (w : Str) : Str :=
  if r.rule_type = "prefix".toList then r.marker ++ w
  else if r.rule_type = "suffix".toList then w ++ r.marker
  else w ++ w

/-! ## SyntaxSystem (`src/language_creator.py` lines 80-105) -/

/-- `SyntaxSystem.generate_sentence` (lines 92-105).  `order` is an optional
argument; Python's `order or self.default_order` makes both `None` and the
empty string fall back to the engine's default order.  Each branch builds an
f-string with single-space separators and calls `.strip()` on it. -/
def generate_sentence (default_order : Str) (subject verb obj : Str)
    (order : Option Str) : Str :=
  let word_order := match order with
    | none => default_order
    | some o => if o = [] then default_order else o
  if word_order = "SVO".toList then
    pyStrip (subject ++ [' '] ++ verb ++ [' '] ++ obj)
  else if word_order = "SOV".toList then
    pyStrip (subject ++ [' '] ++ obj ++ [' '] ++ verb)
  else if word_order = "VOS".toList then
    pyStrip (verb ++ [' '] ++ obj ++ [' '] ++ subject)
  else if word_order = "VSO".toList then
    pyStrip (verb ++ [' '] ++ subject ++ [' '] ++ obj)
  else
    pyStrip (subject ++ [' '] ++ verb ++ [' '] ++ obj)

/-! ## PhonologySystem (`src/language_creator.py` lines 7-37) -/

/-- The slot-filling loop inside `generate_syllable` (lines 18-26): walk the
chosen pattern; at a `'C'` draw from the consonant inventory, at a `'V'` draw
from the vowel inventory (any other character is skipped by the `if/elif`),
appending the drawn phoneme.  `picks : Nat → Nat` supplies the random draw
for the `k`-th slot; drawing from an empty inventory is `random.choice` on
an empty sequence, i.e. an `IndexError`.  The inventories are Python sets;
`list(set)` enumerates them in unspecified order, which the arbitrary pick
index subsumes. -/
def buildSyllable (consonants vowels : List Str) (pat : List Char)
    (picks : Nat → Nat) (k : Nat) : Except PyErr Str :=
  match pat with
  | [] => .ok []
  | c :: rest =>
    if c = 'C' then
      match randomChoice consonants (picks k) with
      | none => .error .indexError
      | some x => (buildSyllable consonants vowels rest picks (k + 1)).map (fun s => x ++ s)
    else if c = 'V' then
      match randomChoice vowels (picks k) with
      | none => .error .indexError
      | some x => (buildSyllable consonants vowels rest picks (k + 1)).map (fun s => x ++ s)
    else
      buildSyllable consonants vowels rest picks k

/-- `PhonologySystem.generate_syllable` (lines 15-26): choose a syllable
pattern at random from the catalog, then fill its slots left to right. -/
def generate_syllable (consonants vowels : List Str) (syllable_patterns : List Str)
    (pidx : Nat) (picks : Nat → Nat) : Except PyErr Str :=
  match randomChoice syllable_patterns pidx with
  | none => .error .indexError
  | some pattern => buildSyllable consonants vowels pattern picks 0

/-- The C/V slots of a pattern (the characters the loop acts on). -/
def patternSlots (pat : List Char) : List Char :=
  pat.filter (fun c => c = 'C' || c = 'V')

/-! ## Level 1: phoneme add requests (`src/language_creator.py` lines 140-143
and 159-163) -/

/-- Python `set.add` on the list model of a set: no effect when the element
is already present. -/
def pySetAdd (l : List Str) (s : Str) : List Str :=
  if s ∈ l then l else l ++ [s]

/-- The consonant add request of `level_1_phonology` (lines 141-143):
`if new_consonant and len(new_consonant) <= 2` — a falsy (empty) or
over-length string is silently ignored, otherwise `set.add`. -/
def level1AddConsonant (consonants : List Str) (new_consonant : Str) : List Str :=
  if new_consonant ≠ [] ∧ new_consonant.length ≤ 2 then pySetAdd consonants new_consonant
  else consonants

/-- The vowel add request of `level_1_phonology` (lines 160-163):
`if new_vowel and len(new_vowel) <= 3`. -/
def level1AddVowel (vowels : List Str) (new_vowel : Str) : List Str :=
  if new_vowel ≠ [] ∧ new_vowel.length ≤ 3 then pySetAdd vowels new_vowel
  else vowels

/-! ## Level 2: vocabulary reclassification and the case bucket
(`src/language_creator.py` lines 187-244) -/

/-- The vocabulary store: `self.vocabulary`, a mapping word-class → word
list.  Only the four buckets the program touches are modelled; `cas` models
`vocabulary['case']` (`case` is a reserved word in Lean). -/
structure Vocabulary where
  unknown : List Str
  noun : List Str
  verb : List Str
  cas : List Str
  deriving DecidableEq, Repr

/-- Python `list.remove`: delete the first occurrence.  (In
`level_2_morphology` the removed word is always present, because the loop
iterates over a snapshot `self.vocabulary['unknown'][:]` and removes each
snapshot element exactly once, so the `ValueError` branch of `list.remove`
is unreachable and the model is total.) -/
def removeFirst : List Str → Str → List Str
  | [], _ => []
  | x :: xs, w => if x = w then xs else x :: removeFirst xs w

/-- One iteration of the reclassification loop (lines 195-208): append the
word to the bucket selected by the (lowercased) reply — `"n"` noun, `"v"`
verb, `"c"` case, anything else noun — then remove it from `unknown`. -/
def classifyStep (v : Vocabulary) (w : Str) (reply : Str) : Vocabulary :=
  let v' :=
    if reply = "n".toList then { v with noun := v.noun ++ [w] }
    else if reply = "v".toList then { v with verb := v.verb ++ [w] }
    else if reply = "c".toList then { v with cas := v.cas ++ [w] }
    else { v with noun := v.noun ++ [w] }
  { v' with unknown := removeFirst v'.unknown w }

/-- The reclassification loop over the snapshot of `unknown`, consuming one
externally supplied reply per word. -/
def reclassifyLoop (v : Vocabulary) (snapshot : List Str) (replies : Nat → Str)
    (i : Nat) : Vocabulary :=
  match snapshot with
  | [] => v
  | w :: ws => reclassifyLoop (classifyStep v w (replies i)) ws replies (i + 1)

/-- The effect of `level_2_morphology` (lines 187-244) on the vocabulary
store: reclassify every word of the `unknown` snapshot, then — after the
rule setup and the demo, which never write to `self.vocabulary` —
unconditionally overwrite the case bucket: `self.vocabulary['case'] =
["ta", "ki"]` (line 241). -/
def level2Vocabulary (v : Vocabulary) (replies : Nat → Str) : Vocabulary :=
  let v' := reclassifyLoop v v.unknown replies 0
  { v' with cas := ["ta".toList, "ki".toList] }

/-! ## Final showcase (`src/language_creator.py` lines 310-373) -/

/-- The data one showcase iteration produces: the chosen subject and object
nouns and the sentence handed to the display layer. -/
structure ShowcaseResult where
  subjNoun : Str
  objNoun : Str
  sentence : Str
  deriving DecidableEq, Repr

/-- One iteration of the `final_showcase` sentence loop (lines 339-373).
`rS, rO, rV` are the pick indices for subject noun, object noun and verb;
`rk` seeds `random.randint(1, 3)` (modelled as `1 + rk % 3`).  `lastRule`
is the loop variable `rule` left over from the rule-printing loop at line
323, i.e. the LAST morphology rule; it exists exactly when the rule list is
non-empty, which is also the guard of the morphology block (line 352).
Returns `.ok none` when the `if self.vocabulary['noun'] and
self.vocabulary['verb']` guard (line 340) skips the body, `.error
.indexError` when a `random.choice` or case-bucket indexing fails, and
`.ok (some _)` on success. -/
def showcaseIteration (nouns verbs cas : List Str) (rules : List MorphologyRule)
    (default_order : Str) (rS rO rV rk : Nat) : Except PyErr (Option ShowcaseResult) :=
  if nouns ≠ [] ∧ verbs ≠ [] then
    match cas.get? 0 with
    | none => .error .indexError
    | some nomMarker =>
      match cas.get? 1 with
      | none => .error .indexError
      | some oblMarker =>
        match randomChoice nouns rS with
        | none => .error .indexError
        | some subjNoun =>
          let nounLIST := nouns.filter (fun n => n ≠ subjNoun)
          match randomChoice nounLIST rO with
          | none => .error .indexError
          | some objNoun =>
            match randomChoice verbs rV with
            | none => .error .indexError
            | some verb0 =>
              let subject := nomMarker ++ [' '] ++ subjNoun
              let obj := oblMarker ++ [' '] ++ objNoun
              let (subject, verb, obj) :=
                match rules.getLast? with
                | none => (subject, verb0, obj)
                | some lastRule =>
                  let applyLIST :=
                    (["past".toList, "voice".toList, "aspect".toList]).take (1 + rk % 3)
                  let verb1 := applyLIST.foldl (fun f r => apply_morphology rules f r) verb0
                  if lastRule.name = "case".toList then
                    (apply_morphology rules subject lastRule.name, verb1,
                      apply_morphology rules obj lastRule.name)
                  else (subject, verb1, obj)
              let sentence := generate_sentence default_order subject verb obj none
              .ok (some ⟨subjNoun, objNoun, sentence⟩)
  else .ok none

/-! ## Helper lemmas -/

theorem randomChoice_mem {α : Type _} {l : List α} {i : Nat} {x : α}
    (h : randomChoice l i = some x) : x ∈ l :=
  List.get?_mem h

theorem randomChoice_of_ne_nil {α : Type _} {l : List α} (h : l ≠ []) (i : Nat) :
    ∃ x, randomChoice l i = some x ∧ x ∈ l := by
  have hl : 0 < l.length := List.length_pos.mpr h
  have hm : i % l.length < l.length := Nat.mod_lt _ hl
  exact ⟨l.get ⟨_, hm⟩, by simp [randomChoice, List.get?_eq_get hm], List.get_mem _ _ _⟩

theorem dropWhile_of_startsOk {s : Str} (h : startsOk s = true) :
    s.dropWhile isPySpace = s := by
  cases s with
  | nil => simp [startsOk] at h
  | cons c t =>
    simp only [startsOk, Bool.not_eq_true'] at h
    simp [List.dropWhile_cons, h]

theorem startsOk_append {s : Str} (t : Str) (h : startsOk s = true) :
    startsOk (s ++ t) = true := by
  cases s with
  | nil => simp [startsOk] at h
  | cons c r => simpa [startsOk] using h

theorem pyStrip_of_ok {s : Str} (h1 : startsOk s = true) (h2 : startsOk s.reverse = true) :
    pyStrip s = s := by
  unfold pyStrip
  rw [dropWhile_of_startsOk h1, dropWhile_of_startsOk h2, List.reverse_reverse]

theorem pyStrip_mid (a m c : Str) (ha : startsOk a = true) (hc : startsOk c.reverse = true) :
    pyStrip (a ++ m ++ c) = a ++ m ++ c := by
  apply pyStrip_of_ok
  · simpa [List.append_assoc] using startsOk_append (m ++ c) ha
  · simpa [List.reverse_append, List.append_assoc]
      using startsOk_append (m.reverse ++ a.reverse) hc

theorem pyStrip_trail (a m c : Str) (ha : startsOk a = true) (hc : startsOk c.reverse = true) :
    pyStrip (a ++ m ++ c ++ [' ']) = a ++ m ++ c := by
  have h1 : List.dropWhile isPySpace (a ++ m ++ c ++ [' ']) = a ++ m ++ c ++ [' '] := by
    apply dropWhile_of_startsOk
    simpa [List.append_assoc] using startsOk_append (m ++ (c ++ [' '])) ha
  have h2 : (a ++ m ++ c ++ [' ']).reverse = ' ' :: (c.reverse ++ (m.reverse ++ a.reverse)) := by
    simp
  have h3 : List.dropWhile isPySpace (' ' :: (c.reverse ++ (m.reverse ++ a.reverse)))
      = c.reverse ++ (m.reverse ++ a.reverse) := by
    rw [List.dropWhile_cons, if_pos (by decide : isPySpace ' ' = true)]
    exact dropWhile_of_startsOk (startsOk_append _ hc)
  unfold pyStrip
  rw [h1, h2, h3]
  simp

theorem mem_pySetAdd {l : List Str} {s t : Str} :
    t ∈ pySetAdd l s ↔ t ∈ l ∨ t = s := by
  unfold pySetAdd
  split
  · rename_i h
    constructor
    · exact Or.inl
    · rintro (ht | rfl)
      · exact ht
      · exact h
  · simp

theorem noPad_startsOk {s : Str} (h : noPad s = true) : startsOk s = true := by
  simp only [noPad, Bool.and_eq_true] at h
  exact h.1

theorem noPad_endsOk {s : Str} (h : noPad s = true) : startsOk s.reverse = true := by
  simp only [noPad, Bool.and_eq_true] at h
  exact h.2

/-! ## Claims -/

/-- **C7.** For every word `w` and every rule name matching no stored rule's
name, `apply_morphology w name` returns `w` unchanged: lookup miss is a
total, silent no-op, never an error. -/
theorem c7_lookup_miss_is_identity (rules : List MorphologyRule) (w name : Str)
    (h : ∀ r ∈ rules, r.name ≠ name) :
    apply_morphology rules w name = w := by
  induction rules with
  | nil => rfl
  | cons r rest ih =>
    have hr : r.name ≠ name := h r (List.mem_cons_self r rest)
    simp only [apply_morphology, if_neg hr]
    exact ih fun q hq => h q (List.mem_cons_of_mem r hq)

/-- Witness for C7 at a concrete input: one stored rule named `past`,
looked up under the unregistered name `nonexistent`. -/
theorem c7_witness :
    apply_morphology [⟨"past".toList, "prefix".toList, "ni-".toList, []⟩]
      "tal".toList "nonexistent".toList = "tal".toList :=
  c7_lookup_miss_is_identity _ _ _ (by decide)

/-- **C10.** Whenever level 2 runs to completion, the case bucket afterwards
is exactly `["ta", "ki"]`, for every starting vocabulary and every sequence
of classification replies: the unconditional overwrite at line 241 discards
anything the reclassification placed in the case class. -/
theorem c10_case_bucket_overwritten (v : Vocabulary) (replies : Nat → Str) :
    (level2Vocabulary v replies).cas = ["ta".toList, "ki".toList] :=
  rfl

/-- **C9.** A phoneme add request whose string is empty or over-length
(more than 2 characters for a consonant, more than 3 for a vowel) is
silently ignored, leaving the inventory exactly unchanged; a valid request
adds the string to the corresponding set. -/
theorem c9_phoneme_validation :
    (∀ (inv : List Str) (s : Str), s = [] ∨ 2 < s.length →
      level1AddConsonant inv s = inv) ∧
    (∀ (inv : List Str) (s : Str), s ≠ [] → s.length ≤ 2 →
      ∀ t : Str, t ∈ level1AddConsonant inv s ↔ t ∈ inv ∨ t = s) ∧
    (∀ (inv : List Str) (s : Str), s = [] ∨ 3 < s.length →
      level1AddVowel inv s = inv) ∧
    (∀ (inv : List Str) (s : Str), s ≠ [] → s.length ≤ 3 →
      ∀ t : Str, t ∈ level1AddVowel inv s ↔ t ∈ inv ∨ t = s) := by
  refine ⟨fun inv s h => ?_, fun inv s h1 h2 t => ?_, fun inv s h => ?_,
    fun inv s h1 h2 t => ?_⟩
  · unfold level1AddConsonant
    rcases h with rfl | h
    · simp
    · rw [if_neg]
      rintro ⟨-, hle⟩
      omega
  · unfold level1AddConsonant
    rw [if_pos ⟨h1, h2⟩]
    exact mem_pySetAdd
  · unfold level1AddVowel
    rcases h with rfl | h
    · simp
    · rw [if_neg]
      rintro ⟨-, hle⟩
      omega
  · unfold level1AddVowel
    rw [if_pos ⟨h1, h2⟩]
    exact mem_pySetAdd

/-- Witness for C9 at concrete inputs: the over-length consonant `"ngh"`
is ignored, and the valid vowel `"aa"` is added. -/
theorem c9_witness :
    level1AddConsonant ["t".toList] "ngh".toList = ["t".toList] ∧
    ("aa".toList ∈ level1AddVowel ["a".toList] "aa".toList ↔
      "aa".toList ∈ ["a".toList] ∨ "aa".toList = "aa".toList) := by
  constructor
  · exact c9_phoneme_validation.1 _ _ (by decide)
  · exact c9_phoneme_validation.2.2.2 _ _ (by decide) (by decide) _

/-- **C1, counterexample.** The claim predicts that with two stored rules
both named `r`, the first of kind `infix`, `apply_morphology "w" "r"`
returns `"w"` (first match wins, infix is a no-op).  The code instead skips
the infix rule — the inner `if/elif` chain has no branch for it, so the
loop continues — and applies the LATER same-named prefix rule, yielding
`"yw"`. -/
theorem c1_counterexample :
    apply_morphology
      [⟨"r".toList, "infix".toList, "x".toList, []⟩,
        ⟨"r".toList, "prefix".toList, "y".toList, []⟩]
      "w".toList "r".toList = "yw".toList ∧
    "yw".toList ≠ "w".toList := by
  decide

/-- **C1, amended.** `apply_morphology baseWord ruleName` is determined by
the first stored rule (in insertion order) whose name equals `ruleName` AND
whose kind is `prefix`, `suffix`, or `reduplication` (applying marker +
word, word + marker, word + word respectively); same-named rules of any
other kind, `infix` included, are skipped and the scan continues, and when
no matching rule of those three kinds exists the base word is returned
unchanged. -/
theorem c1_first_effective_rule_wins (rules : List MorphologyRule) (name w : Str) :
    apply_morphology rules w name =
      (rules.find? (isEffectiveFor name)).elim w (fun r => ruleEffect r w) := by
  induction rules with
  | nil => rfl
  | cons r rest ih =>
    simp only [List.find?]
    cases heff : isEffectiveFor name r with
    | false =>
      dsimp only
      rw [← ih]
      by_cases hn : r.name = name
      · have hp : r.rule_type ≠ "prefix".toList := by
          intro hx
          simp [isEffectiveFor, hn, hx] at heff
        have hs : r.rule_type ≠ "suffix".toList := by
          intro hx
          simp [isEffectiveFor, hn, hx] at heff
        have hr : r.rule_type ≠ "reduplication".toList := by
          intro hx
          simp [isEffectiveFor, hn, hx] at heff
        simp only [apply_morphology]
        rw [if_pos hn, if_neg hp, if_neg hs, if_neg hr]
      · simp only [apply_morphology]
        rw [if_neg hn]
    | true =>
      dsimp only
      have h' := heff
      simp only [isEffectiveFor, Bool.and_eq_true, Bool.or_eq_true, decide_eq_true_eq] at h'
      obtain ⟨hn, hk⟩ := h'
      simp only [apply_morphology, ruleEffect, Option.elim]
      rw [if_pos hn]
      by_cases hp : r.rule_type = "prefix".toList
      · simp +decide [hp]
      · by_cases hs : r.rule_type = "suffix".toList
        · simp +decide [hp, hs]
        · have hr : r.rule_type = "reduplication".toList := by tauto
          simp +decide [hp, hs, hr]

/-- **C2, counterexample.** The claim says every one of the four order tags
joins the two remaining constituents with a single space when the object is
empty.  With SOV the empty object sits between the two separator spaces, so
`.strip()` leaves a doubled INTERNAL space: `"ta kuna  bel"`, not
`"ta kuna bel"`. -/
theorem c2_counterexample :
    generate_sentence "SVO".toList "ta kuna".toList "bel".toList []
      (some "SOV".toList) = "ta kuna  bel".toList ∧
    "ta kuna  bel".toList ≠ "ta kuna bel".toList := by
  decide

/-- **C2, amended.** For non-empty subject and verb strings without
whitespace padding and an empty object, SVO and VSO orders join the two
remaining constituents with a single space (the dangling separator is at
the edge, where `.strip()` removes it), while SOV and VOS orders join them
with two spaces (the empty object's separators are internal and survive
`.strip()`); no leading or trailing space in any case. -/
theorem c2_empty_object (d s v : Str) (hs : noPad s = true) (hv : noPad v = true) :
    generate_sentence d s v [] (some "SVO".toList) = s ++ [' '] ++ v ∧
    generate_sentence d s v [] (some "VSO".toList) = v ++ [' '] ++ s ∧
    generate_sentence d s v [] (some "SOV".toList) = s ++ [' ', ' '] ++ v ∧
    generate_sentence d s v [] (some "VOS".toList) = v ++ [' ', ' '] ++ s := by
  have hs1 := noPad_startsOk hs
  have hs2 := noPad_endsOk hs
  have hv1 := noPad_startsOk hv
  have hv2 := noPad_endsOk hv
  refine ⟨?_, ?_, ?_, ?_⟩
  · show pyStrip (s ++ [' '] ++ v ++ [' '] ++ []) = s ++ [' '] ++ v
    have := pyStrip_trail s [' '] v hs1 hv2
    simpa [List.append_assoc] using this
  · show pyStrip (v ++ [' '] ++ s ++ [' '] ++ []) = v ++ [' '] ++ s
    have := pyStrip_trail v [' '] s hv1 hs2
    simpa [List.append_assoc] using this
  · show pyStrip (s ++ [' '] ++ [] ++ [' '] ++ v) = s ++ [' ', ' '] ++ v
    have := pyStrip_mid s [' ', ' '] v hs1 hv2
    simpa [List.append_assoc] using this
  · show pyStrip (v ++ [' '] ++ [] ++ [' '] ++ s) = v ++ [' ', ' '] ++ s
    have := pyStrip_mid v [' ', ' '] s hv1 hs2
    simpa [List.append_assoc] using this

/-- Witness for C2 (amended) at the spec's concrete inputs
subject `"ta kuna"`, verb `"bel"`. -/
theorem c2_witness :
    generate_sentence "SVO".toList "ta kuna".toList "bel".toList []
        (some "SVO".toList) = "ta kuna".toList ++ [' '] ++ "bel".toList ∧
    generate_sentence "SVO".toList "ta kuna".toList "bel".toList []
        (some "VSO".toList) = "bel".toList ++ [' '] ++ "ta kuna".toList ∧
    generate_sentence "SVO".toList "ta kuna".toList "bel".toList []
        (some "SOV".toList) = "ta kuna".toList ++ [' ', ' '] ++ "bel".toList ∧
    generate_sentence "SVO".toList "ta kuna".toList "bel".toList []
        (some "VOS".toList) = "bel".toList ++ [' ', ' '] ++ "ta kuna".toList :=
  c2_empty_object "SVO".toList "ta kuna".toList "bel".toList (by decide) (by decide)

/-- **C3, counterexample.** The claim quantifies over ALL subject strings;
with the empty subject, `.strip()` removes the leading separator space, so
the result is not the literal single-space concatenation of the three
constituents. -/
theorem c3_counterexample :
    generate_sentence "SVO".toList [] "bel".toList "ki".toList
      (some "SVO".toList) = "bel ki".toList ∧
    "bel ki".toList ≠ ([] : Str) ++ [' '] ++ "bel".toList ++ [' '] ++ "ki".toList := by
  decide

/-- **C3, amended.** For subject, verb, and object strings that are
non-empty and free of whitespace padding, `generate_sentence` arranges them
per the order tag with single-space separators — SVO `subject verb object`,
SOV `subject object verb`, VOS `verb object subject`, VSO
`verb subject object` — and on the spec's concrete table (subject
`"ta kuna"`, verb `"bel"`, object `"ki sora"`) the four orders yield the
four listed sentences. -/
theorem c3_order_assembly :
    (∀ (d s v o : Str), noPad s = true → noPad v = true → noPad o = true →
      generate_sentence d s v o (some "SVO".toList) = s ++ [' '] ++ v ++ [' '] ++ o ∧
      generate_sentence d s v o (some "SOV".toList) = s ++ [' '] ++ o ++ [' '] ++ v ∧
      generate_sentence d s v o (some "VOS".toList) = v ++ [' '] ++ o ++ [' '] ++ s ∧
      generate_sentence d s v o (some "VSO".toList) = v ++ [' '] ++ s ++ [' '] ++ o) ∧
    (generate_sentence "SVO".toList "ta kuna".toList "bel".toList "ki sora".toList
        (some "SVO".toList) = "ta kuna bel ki sora".toList ∧
      generate_sentence "SVO".toList "ta kuna".toList "bel".toList "ki sora".toList
        (some "SOV".toList) = "ta kuna ki sora bel".toList ∧
      generate_sentence "SVO".toList "ta kuna".toList "bel".toList "ki sora".toList
        (some "VOS".toList) = "bel ki sora ta kuna".toList ∧
      generate_sentence "SVO".toList "ta kuna".toList "bel".toList "ki sora".toList
        (some "VSO".toList) = "bel ta kuna ki sora".toList) := by
  constructor
  · intro d s v o hs hv ho
    have hs1 := noPad_startsOk hs
    have hs2 := noPad_endsOk hs
    have hv1 := noPad_startsOk hv
    have hv2 := noPad_endsOk hv
    have ho1 := noPad_startsOk ho
    have ho2 := noPad_endsOk ho
    refine ⟨?_, ?_, ?_, ?_⟩
    · show pyStrip (s ++ [' '] ++ v ++ [' '] ++ o) = s ++ [' '] ++ v ++ [' '] ++ o
      have := pyStrip_mid s ([' '] ++ v ++ [' ']) o hs1 ho2
      simpa [List.append_assoc] using this
    · show pyStrip (s ++ [' '] ++ o ++ [' '] ++ v) = s ++ [' '] ++ o ++ [' '] ++ v
      have := pyStrip_mid s ([' '] ++ o ++ [' ']) v hs1 hv2
      simpa [List.append_assoc] using this
    · show pyStrip (v ++ [' '] ++ o ++ [' '] ++ s) = v ++ [' '] ++ o ++ [' '] ++ s
      have := pyStrip_mid v ([' '] ++ o ++ [' ']) s hv1 hs2
      simpa [List.append_assoc] using this
    · show pyStrip (v ++ [' '] ++ s ++ [' '] ++ o) = v ++ [' '] ++ s ++ [' '] ++ o
      have := pyStrip_mid v ([' '] ++ s ++ [' ']) o hv1 ho2
      simpa [List.append_assoc] using this
  · decide

/-- Witness for C3 (amended) at concrete inputs with multi-word
constituents. -/
theorem c3_witness :
    generate_sentence "SVO".toList "ta kuna".toList "bel".toList "ki sora".toList
        (some "SOV".toList)
      = "ta kuna".toList ++ [' '] ++ "ki sora".toList ++ [' '] ++ "bel".toList :=
  (c3_order_assembly.1 "SVO".toList "ta kuna".toList "bel".toList "ki sora".toList
    (by decide) (by decide) (by decide)).2.1

/-- **C6, counterexample.** The claim includes the empty order string, but
Python's `order or self.default_order` treats the empty string as falsy and
falls back to the engine's DEFAULT order, not to SVO: with default order
SOV, the empty tag yields the SOV arrangement, which differs from the
explicit-SVO output. -/
theorem c6_counterexample :
    generate_sentence "SOV".toList "ta".toList "bel".toList "ki".toList
      (some []) = "ta ki bel".toList ∧
    generate_sentence "SOV".toList "ta".toList "bel".toList "ki".toList
      (some "SVO".toList) = "ta bel ki".toList ∧
    "ta ki bel".toList ≠ "ta bel ki".toList := by
  decide

/-- **C6, amended.** For every NON-EMPTY order string not among SVO, SOV,
VOS, VSO, `generate_sentence` returns a string bit-for-bit identical to the
explicit-SVO call, in every engine state; the empty order string (like an
omitted order) instead selects the engine's default order. -/
theorem c6_unknown_order_is_svo :
    (∀ (d s v o ord : Str), ord ≠ [] → ord ≠ "SVO".toList → ord ≠ "SOV".toList →
      ord ≠ "VOS".toList → ord ≠ "VSO".toList →
      generate_sentence d s v o (some ord) = generate_sentence d s v o (some "SVO".toList)) ∧
    (∀ (d s v o : Str),
      generate_sentence d s v o (some []) = generate_sentence d s v o none) := by
  constructor
  · intro d s v o ord h0 h1 h2 h3 h4
    simp +decide [generate_sentence, h0, h1, h2, h3, h4]
    intro _
    rw [if_neg (by simpa using h2), if_neg (by simpa using h3), if_neg (by simpa using h4)]
  · intro d s v o
    simp [generate_sentence]

/-- Witness for C6 (amended) at the concrete unknown tag `"XYZ"` and at the
empty tag. -/
theorem c6_witness :
    generate_sentence "SOV".toList "ta".toList "bel".toList "ki".toList
        (some "XYZ".toList)
      = generate_sentence "SOV".toList "ta".toList "bel".toList "ki".toList
        (some "SVO".toList) ∧
    generate_sentence "SOV".toList "ta".toList "bel".toList "ki".toList (some [])
      = generate_sentence "SOV".toList "ta".toList "bel".toList "ki".toList none :=
  ⟨c6_unknown_order_is_svo.1 _ _ _ _ _ (by decide) (by decide) (by decide) (by decide)
      (by decide),
    c6_unknown_order_is_svo.2 _ _ _ _⟩

theorem buildSyllable_consonant_err (cons vows : List Str) (picks : Nat → Nat)
    (hc : cons = []) :
    ∀ (pat : List Char) (k : Nat), 'C' ∈ pat →
      buildSyllable cons vows pat picks k = .error .indexError := by
  intro pat
  induction pat with
  | nil =>
    intro k hmem
    simp at hmem
  | cons c rest ih =>
    intro k hmem
    by_cases h1 : c = 'C'
    · subst h1
      subst hc
      simp [buildSyllable, randomChoice]
    · have hmem' : 'C' ∈ rest := by
        rcases List.mem_cons.mp hmem with h | h
        · exact absurd h.symm h1
        · exact h
      by_cases h2 : c = 'V'
      · subst h2
        simp only [buildSyllable, if_neg (by decide : ¬ (('V' : Char) = 'C')), if_pos rfl]
        cases hv : randomChoice vows (picks k) with
        | none => rfl
        | some x =>
          rw [ih (k + 1) hmem']
          rfl
      · simp only [buildSyllable, if_neg h1, if_neg h2]
        exact ih k hmem'

theorem buildSyllable_vowel_err (cons vows : List Str) (picks : Nat → Nat)
    (hv : vows = []) :
    ∀ (pat : List Char) (k : Nat), 'V' ∈ pat →
      buildSyllable cons vows pat picks k = .error .indexError := by
  intro pat
  induction pat with
  | nil =>
    intro k hmem
    simp at hmem
  | cons c rest ih =>
    intro k hmem
    by_cases h1 : c = 'C'
    · subst h1
      have hmem' : 'V' ∈ rest := by
        rcases List.mem_cons.mp hmem with h | h
        · exact absurd h (by decide)
        · exact h
      simp only [buildSyllable, if_pos rfl]
      cases hx : randomChoice cons (picks k) with
      | none => rfl
      | some x =>
        rw [ih (k + 1) hmem']
        rfl
    · by_cases h2 : c = 'V'
      · subst h2
        subst hv
        simp only [buildSyllable, if_neg h1, if_pos rfl]
        simp [randomChoice]
      · have hmem' : 'V' ∈ rest := by
          rcases List.mem_cons.mp hmem with h | h
          · exact absurd h.symm h2
          · exact h
        simp only [buildSyllable, if_neg h1, if_neg h2]
        exact ih k hmem'

/-- **C5, counterexample.** The claim names an explicit
`EmptyInventoryError`.  No such error exists anywhere in the source: with an
empty consonant set and the template `"CV"`, `generate_syllable` fails with
the `IndexError` that `random.choice` raises on an empty sequence — an
error, but not the claimed one. -/
theorem c5_counterexample :
    generate_syllable [] ["a".toList] ["CV".toList] 0 (fun _ => 0)
      = .error .indexError ∧
    PyErr.indexError ≠ PyErr.emptyInventoryError :=
  ⟨rfl, by decide⟩

/-- **C5, amended.** For every template catalog and every state in which
the consonant set (respectively vowel set) is empty while the chosen
syllable template contains a `C` (respectively `V`) slot,
`generate_syllable` fails with the uncaught `IndexError` from
`random.choice` on an empty sequence, surfaced to the caller, rather than
silently returning a string (in particular not an empty string). -/
theorem c5_empty_inventory_fails (cons vows patterns : List Str)
    (pidx : Nat) (picks : Nat → Nat) (pat : Str)
    (hpat : randomChoice patterns pidx = some pat) :
    (cons = [] → 'C' ∈ pat →
      generate_syllable cons vows patterns pidx picks = .error .indexError) ∧
    (vows = [] → 'V' ∈ pat →
      generate_syllable cons vows patterns pidx picks = .error .indexError) := by
  constructor
  · intro hc hmem
    simp only [generate_syllable, hpat]
    exact buildSyllable_consonant_err cons vows picks hc pat 0 hmem
  · intro hv hmem
    simp only [generate_syllable, hpat]
    exact buildSyllable_vowel_err cons vows picks hv pat 0 hmem

/-- Witness for C5 (amended): empty consonant inventory, template catalog
`{"CV"}`. -/
theorem c5_witness :
    generate_syllable [] ["a".toList] ["CV".toList] 0 (fun _ => 0)
      = .error .indexError :=
  (c5_empty_inventory_fails [] ["a".toList] ["CV".toList] 0 (fun _ => 0)
    "CV".toList (by decide)).1 rfl (by decide)

theorem buildSyllable_ok (cons vows : List Str) (picks : Nat → Nat)
    (hc : cons ≠ []) (hv : vows ≠ []) :
    ∀ (pat : List Char) (k : Nat), ∃ toks : List Str,
      buildSyllable cons vows pat picks k = .ok toks.flatten ∧
      List.Forall₂ (fun c t => (c = 'C' ∧ t ∈ cons) ∨ (c = 'V' ∧ t ∈ vows))
        (patternSlots pat) toks := by
  intro pat
  induction pat with
  | nil =>
    intro k
    exact ⟨[], rfl, by simp [patternSlots]⟩
  | cons c rest ih =>
    intro k
    by_cases h1 : c = 'C'
    · subst h1
      obtain ⟨x, hx, hxm⟩ := randomChoice_of_ne_nil hc (picks k)
      obtain ⟨toks, hb, hf⟩ := ih (k + 1)
      refine ⟨x :: toks, ?_, ?_⟩
      · simp only [buildSyllable, if_pos rfl, hx, hb]
        rfl
      · have : patternSlots ('C' :: rest) = 'C' :: patternSlots rest := by
          simp [patternSlots]
        rw [this]
        exact List.Forall₂.cons (Or.inl ⟨rfl, hxm⟩) hf
    · by_cases h2 : c = 'V'
      · subst h2
        obtain ⟨x, hx, hxm⟩ := randomChoice_of_ne_nil hv (picks k)
        obtain ⟨toks, hb, hf⟩ := ih (k + 1)
        refine ⟨x :: toks, ?_, ?_⟩
        · simp only [buildSyllable, if_neg h1, if_pos rfl, hx, hb]
          rfl
        · have : patternSlots ('V' :: rest) = 'V' :: patternSlots rest := by
            simp [patternSlots]
          rw [this]
          exact List.Forall₂.cons (Or.inr ⟨rfl, hxm⟩) hf
      · obtain ⟨toks, hb, hf⟩ := ih k
        refine ⟨toks, ?_, ?_⟩
        · simp only [buildSyllable, if_neg h1, if_neg h2]
          exact hb
        · have : patternSlots (c :: rest) = patternSlots rest := by
            simp [patternSlots, h1, h2]
          rw [this]
          exact hf

/-- **C8.** For every non-empty consonant and vowel inventory,
`generate_syllable` returns the concatenation, in template slot order, of
one inventory element per `C` slot and one per `V` slot of the randomly
chosen template, with length the sum of the drawn tokens' lengths; and in
the concrete scenario consonants `{t, k, s}`, vowels `{a, i}`, template
catalog `{"CV"}`, the result is always one of `ta, ti, ka, ki, sa, si`. -/
theorem c8_syllable_composition :
    (∀ (cons vows patterns : List Str) (pidx : Nat) (picks : Nat → Nat) (pat : Str),
      randomChoice patterns pidx = some pat → cons ≠ [] → vows ≠ [] →
      ∃ toks : List Str,
        generate_syllable cons vows patterns pidx picks = .ok toks.flatten ∧
        List.Forall₂ (fun c t => (c = 'C' ∧ t ∈ cons) ∨ (c = 'V' ∧ t ∈ vows))
          (patternSlots pat) toks ∧
        toks.flatten.length = (toks.map List.length).sum) ∧
    (∀ (pidx : Nat) (picks : Nat → Nat),
      generate_syllable ["t".toList, "k".toList, "s".toList]
          ["a".toList, "i".toList] ["CV".toList] pidx picks ∈
        ([.ok "ta".toList, .ok "ti".toList, .ok "ka".toList, .ok "ki".toList,
          .ok "sa".toList, .ok "si".toList] : List (Except PyErr Str))) := by
  constructor
  · intro cons vows patterns pidx picks pat hpat hc hv
    obtain ⟨toks, hb, hf⟩ := buildSyllable_ok cons vows picks hc hv pat 0
    refine ⟨toks, ?_, hf, List.length_flatten toks⟩
    simp only [generate_syllable, hpat]
    exact hb
  · intro pidx picks
    have hpat : randomChoice ["CV".toList] pidx = some "CV".toList := by
      simp [randomChoice, Nat.mod_one]
    obtain ⟨x, hx, hxm⟩ := randomChoice_of_ne_nil
      (show ["t".toList, "k".toList, "s".toList] ≠ [] by decide) (picks 0)
    obtain ⟨y, hy, hym⟩ := randomChoice_of_ne_nil
      (show ["a".toList, "i".toList] ≠ [] by decide) (picks 1)
    have hres : generate_syllable ["t".toList, "k".toList, "s".toList]
        ["a".toList, "i".toList] ["CV".toList] pidx picks = .ok (x ++ (y ++ [])) := by
      simp only [generate_syllable, hpat, buildSyllable, if_pos rfl,
        if_neg (by decide : ¬ (('V' : Char) = 'C')), hx, hy]
      rfl
    rw [hres]
    simp only [List.mem_cons, List.not_mem_nil, or_false] at hxm hym
    rcases hxm with rfl | rfl | rfl <;> rcases hym with rfl | rfl <;> decide

/-- Witness for C8: the general part applied at the concrete scenario
consonants `{t, k, s}`, vowels `{a, i}`, template catalog `{"CV"}`, all pick
indices 0. -/
theorem c8_witness :
    ∃ toks : List Str,
      generate_syllable ["t".toList, "k".toList, "s".toList]
          ["a".toList, "i".toList] ["CV".toList] 0 (fun _ => 0) = .ok toks.flatten ∧
      List.Forall₂ (fun c t => (c = 'C' ∧ t ∈ ["t".toList, "k".toList, "s".toList]) ∨
          (c = 'V' ∧ t ∈ ["a".toList, "i".toList]))
        (patternSlots "CV".toList) toks ∧
      toks.flatten.length = (toks.map List.length).sum :=
  c8_syllable_composition.1 ["t".toList, "k".toList, "s".toList]
    ["a".toList, "i".toList] ["CV".toList] 0 (fun _ => 0) "CV".toList
    (by decide) (by decide) (by decide)

/-- **C4, counterexample.** The claim's precondition (non-empty noun and
verb buckets, case bucket of at least 2) is satisfied here with a single
noun, yet the showcase synthesis raises: `nounLIST = [n for n in nouns if
n != subjNoun]` is empty and `random.choice([])` raises `IndexError` — the
code has no "some noun otherwise" fallback. -/
theorem c4_counterexample :
    showcaseIteration [['a']] [['v']] ["ta".toList, "ki".toList] [] "SVO".toList
      0 0 0 0 = .error .indexError := by
  rfl

/-- **C4, amended.** Under the strengthened precondition that the noun
bucket contains at least two DISTINCT nouns (non-emptiness alone is not
enough), the verb bucket is non-empty, and the case bucket has at least 2
entries, each final-showcase example sentence synthesis succeeds without
raising an error, picking a random subject noun and an object noun that is
distinct from the subject noun. -/
theorem c4_showcase_succeeds (nouns verbs cas : List Str)
    (rules : List MorphologyRule) (d : Str) (rS rO rV rk : Nat)
    (hn : ∃ a ∈ nouns, ∃ b ∈ nouns, a ≠ b) (hv : verbs ≠ []) (hc : 2 ≤ cas.length) :
    ∃ res : ShowcaseResult,
      showcaseIteration nouns verbs cas rules d rS rO rV rk = .ok (some res) ∧
      res.subjNoun ∈ nouns ∧ res.objNoun ∈ nouns ∧ res.objNoun ≠ res.subjNoun := by
  obtain ⟨a, ha, b, hb, hab⟩ := hn
  have hne : nouns ≠ [] := List.ne_nil_of_mem ha
  have hl0 : 0 < cas.length := by omega
  have hl1 : 1 < cas.length := by omega
  obtain ⟨subjN, hsubj, hsubjm⟩ := randomChoice_of_ne_nil hne rS
  have hfil : nouns.filter (fun n => n ≠ subjN) ≠ [] := by
    by_cases has : a = subjN
    · have hbne : b ≠ subjN := by
        rw [← has]
        exact fun h => hab h.symm
      exact List.ne_nil_of_mem (List.mem_filter.mpr ⟨hb, by simpa using hbne⟩)
    · exact List.ne_nil_of_mem (List.mem_filter.mpr ⟨ha, by simpa using has⟩)
  obtain ⟨objN, hobj, hobjm⟩ := randomChoice_of_ne_nil hfil rO
  have hobjm' := List.mem_filter.mp hobjm
  obtain ⟨verbW, hverb, -⟩ := randomChoice_of_ne_nil hv rV
  refine ⟨⟨subjN, objN, ?_⟩, ?_, hsubjm, hobjm'.1, by simpa using hobjm'.2⟩
  case refine_1 => exact
    (match (match rules.getLast? with
      | none => (cas.get ⟨0, hl0⟩ ++ [' '] ++ subjN, verbW, cas.get ⟨1, hl1⟩ ++ [' '] ++ objN)
      | some lastRule =>
        let applyLIST :=
          (["past".toList, "voice".toList, "aspect".toList]).take (1 + rk % 3)
        let verb1 := applyLIST.foldl (fun f r => apply_morphology rules f r) verbW
        if lastRule.name = "case".toList then
          (apply_morphology rules (cas.get ⟨0, hl0⟩ ++ [' '] ++ subjN) lastRule.name, verb1,
            apply_morphology rules (cas.get ⟨1, hl1⟩ ++ [' '] ++ objN) lastRule.name)
        else (cas.get ⟨0, hl0⟩ ++ [' '] ++ subjN, verb1, cas.get ⟨1, hl1⟩ ++ [' '] ++ objN)) with
      | (subject, verb, obj) => generate_sentence d subject verb obj none)
  case refine_2 =>
    simp only [showcaseIteration, if_pos (And.intro hne hv), List.get?_eq_get hl0,
      List.get?_eq_get hl1, hsubj, hobj, hverb]

/-- Witness for C4 (amended): two distinct nouns, one verb, the two case
markers, no morphology rules, all picks 0. -/
theorem c4_witness :
    ∃ res : ShowcaseResult,
      showcaseIteration [['a'], ['b']] [['v']] ["ta".toList, "ki".toList] []
          "SVO".toList 0 0 0 0 = .ok (some res) ∧
      res.subjNoun ∈ [['a'], ['b']] ∧ res.objNoun ∈ [['a'], ['b']] ∧
      res.objNoun ≠ res.subjNoun :=
  c4_showcase_succeeds [['a'], ['b']] [['v']] ["ta".toList, "ki".toList] []
    "SVO".toList 0 0 0 0 (by decide) (by decide) (by decide)

end Siraya
